import Mathlib

/-!
Verification development for the benshields/tftp server (Go).

The Go sources are shallowly embedded: byte slices become `List Nat`
(each element a byte value below 256 where the wire produces it),
`uint16` arithmetic is `Nat` arithmetic taken modulo `2 ^ 16 = 65536`,
fallible Go functions returning `(T, error)` become `Except String T`,
and the buffered file stream the session consumes is explicit state
(a `List Nat` of remaining bytes for reads, accumulated bytes for writes),
following the file-stream contract the session is written against.
Each definition's doc comment names the Go source it embeds.
-/

namespace TFTP

/-- Byte strings on the wire and Go byte slices; each element is a byte value. -/
abbrev Bytes := List Nat

/-- Big-endian two-byte encoding of a `uint16` value, as produced by
Go's `binary.Write(buf, binary.BigEndian, x)` for `x : uint16`.
Taking each component modulo 256 mirrors the truncation to 16 bits. -/
def be16 (n : Nat) : Bytes := [n / 256 % 256, n % 256]

/-- Bytes of an ASCII string, for the Go string literals in the source. -/
def strBytes (s : String) : Bytes := s.toList.map Char.toNat

/-- Embeds `type Packet struct` (src/unnamed/part_001 lines 18-22): a received
datagram with its source address (abstracted to a numeric id) and raw bytes. -/
structure Packet where
  src : Nat
  data : Bytes
deriving DecidableEq

/-- Embeds `Packet.readOpCode` (src/unnamed/part_001 lines 300-307):
`binary.Read` of a big-endian `uint16` from the head of the data;
it fails when fewer than two bytes are available. -/
def readOpCode (p : Packet) : Except String Nat :=
  match p.data with
  | b0 :: b1 :: _ => .ok (b0 * 256 + b1)
  | _ => .error "unexpected EOF"

/-- Embeds `Packet.readBlockNumber` (src/unnamed/part_001 lines 180-194):
seek past the two opcode bytes, then `binary.Read` a big-endian `uint16`;
it fails when bytes 2 and 3 are missing. -/
def readBlockNumber (p : Packet) : Except String Nat :=
  match p.data with
  | _ :: _ :: b2 :: b3 :: _ => .ok (b2 * 256 + b3)
  | _ => .error "unexpected EOF"

/-- Embeds `Packet.readData` (src/unnamed/part_001 lines 196-210): seek past
the four header bytes and read every remaining byte (`bytesReader.Len()`
is zero when the seek lands at or past the end, so a short packet yields
an empty payload, exactly as `List.drop` behaves). -/
def readData (p : Packet) : Except String Bytes :=
  .ok (p.data.drop 4)

/-- Embeds `openFlag` (src/unnamed/part_004): read-only versus create-append-write. -/
inductive openFlag
  | read
  | write
deriving DecidableEq

/-- Embeds `encodingFlag` (src/unnamed/part_004): netascii versus octet transfer encoding. -/
inductive encodingFlag
  | netascii
  | octet
deriving DecidableEq

/-- Embeds `opCodeToOpenFlag` (src/unnamed/part_001 lines 66-77):
opcode 1 (RRQ) opens for read, opcode 2 (WRQ) opens for write,
everything else is rejected. -/
def opCodeToOpenFlag (op : Nat) : Except String openFlag :=
  if op = 1 then .ok .read
  else if op = 2 then .ok .write
  else .error "expected opcode matching RRQ or WRQ"

/-- Embeds `Packet.readOpenFlag` (src/unnamed/part_001 lines 57-64). -/
def Packet.readOpenFlag (p : Packet) : Except String openFlag :=
  match readOpCode p with
  | .error e => .error e
  | .ok op => opCodeToOpenFlag op

/-- Splits a buffer at its first 0x00 byte, the effect of Go's
`buffer.ReadBytes(0x00)`: `some (s, r)` when a null exists, where `s` is
the bytes before it and `r` the bytes after it; `none` (io.EOF) otherwise. -/
def splitAtNull : Bytes → Option (Bytes × Bytes)
  | [] => none
  | b :: rest =>
    if b = 0 then some ([], rest)
    else
      match splitAtNull rest with
      | some (s, r) => some (b :: s, r)
      | none => none

/-- Embeds `bytes.TrimRight(l, "\x00")`: drop every trailing zero byte. -/
def trimRightZeros (l : Bytes) : Bytes :=
  (l.reverse.dropWhile (fun b => b == 0)).reverse

/-- Embeds `readNetasciiString` (src/unnamed/part_001 lines 291-298):
read up to and including the first null byte, strip trailing nulls from
what was read, and leave the rest of the buffer for the next read. -/
def readNetasciiString (buf : Bytes) : Except String (Bytes × Bytes) :=
  match splitAtNull buf with
  | some (s, r) => .ok (trimRightZeros (s ++ [0]), r)
  | none => .error "EOF"

/-- Embeds `Packet.readFilename` (src/unnamed/part_001 lines 79-86): reject
packets shorter than `minRequestPacketSize = 6`, skip the opcode, read the
first netascii string. -/
def Packet.readFilename (p : Packet) : Except String Bytes :=
  if p.data.length < 6 then .error "incorrectly formed request packet"
  else
    match readNetasciiString (p.data.drop 2) with
    | .error e => .error e
    | .ok fr => .ok fr.1

/-- Embeds `toLowerByte` behaviour of `strings.ToLower` on ASCII bytes:
uppercase letters gain 32, all other byte values pass through. -/
def toLowerByte (b : Nat) : Nat :=
  if 65 ≤ b ∧ b ≤ 90 then b + 32 else b

/-- ASCII lowercasing of a byte string, the effect of the source's
`strings.ToLower(mode)` on the ASCII mode strings the protocol admits. -/
def toLowerAscii (s : Bytes) : Bytes := s.map toLowerByte

/-- Embeds `modeToEncodingFlag` (src/unnamed/part_001 lines 106-118):
lowercase the mode, accept exactly "netascii" and "octet". -/
def modeToEncodingFlag (mode : Bytes) : Except String encodingFlag :=
  let m := toLowerAscii mode
  if m = strBytes "netascii" then .ok .netascii
  else if m = strBytes "octet" then .ok .octet
  else .error "expected mode matching netascii or octet"

/-- Embeds `Packet.readEncodingFlag` (src/unnamed/part_001 lines 88-104):
length guard, skip the opcode, skip the filename string, read the mode
string and map it to a flag. -/
def Packet.readEncodingFlag (p : Packet) : Except String encodingFlag :=
  if p.data.length < 6 then .error "incorrectly formed request packet"
  else
    match readNetasciiString (p.data.drop 2) with
    | .error e => .error e
    | .ok fr =>
      match readNetasciiString fr.2 with
      | .error e => .error e
      | .ok mr => modeToEncodingFlag mr.1

/-- Embeds `RequestPacket` (src/unnamed/part_001 lines 27-31). -/
structure RequestPacket where
  flag : openFlag
  filename : Bytes
  encoding : encodingFlag
deriving DecidableEq

/-- Embeds `parseRequestPacket` (src/unnamed/part_001 lines 36-55). -/
def parseRequestPacket (p : Packet) : Except String RequestPacket :=
  match p.readOpenFlag with
  | .error e => .error e
  | .ok fl =>
    match p.readFilename with
    | .error e => .error e
    | .ok fn =>
      match p.readEncodingFlag with
      | .error e => .error e
      | .ok enc => .ok ⟨fl, fn, enc⟩

/-- Embeds `DataPacket` (src/unnamed/part_001 lines 141-144). -/
structure DataPacket where
  blockNumber : Nat
  data : Bytes
deriving DecidableEq

/-- Embeds `createDataPacket` (src/unnamed/part_001 lines 212-218). -/
def createDataPacket (blockNumber : Nat) (data : Bytes) : DataPacket :=
  ⟨blockNumber, data⟩

/-- Embeds `DataPacket.bytes` (src/unnamed/part_001 lines 220-222):
`binaryWrite(DATA, blockNumber, data)` emits the opcode 3 as a big-endian
`uint16`, the block number likewise, then the payload bytes. -/
def DataPacket.bytes (p : DataPacket) : Bytes :=
  be16 3 ++ be16 p.blockNumber ++ p.data

/-- Embeds `Packet.readDataOpCode` (src/unnamed/part_001 lines 169-178):
succeed exactly when the opcode reads as DATA (3). -/
def readDataOpCode (p : Packet) : Except String Unit :=
  match readOpCode p with
  | .error e => .error e
  | .ok op => if op = 3 then .ok () else .error "illegal TFTP operation"

/-- Embeds `parseDataPacket` (src/unnamed/part_001 lines 149-167). -/
def parseDataPacket (p : Packet) : Except String DataPacket :=
  match readDataOpCode p with
  | .error e => .error e
  | .ok _ =>
    match readBlockNumber p with
    | .error e => .error e
    | .ok bn =>
      match readData p with
      | .error e => .error e
      | .ok d => .ok ⟨bn, d⟩

/-- Embeds `AckPacket` and `createAckPacket` (src/unnamed/part_001 lines 123-132). -/
structure AckPacket where
  blockNumber : Nat
deriving DecidableEq

/-- Embeds `createAckPacket` (src/unnamed/part_001 lines 127-132). -/
def createAckPacket (blockNumber : Nat) : AckPacket :=
  ⟨blockNumber⟩

/-- Embeds `AckPacket.bytes` (src/unnamed/part_001 lines 134-136):
`binaryWrite(ACK, blockNumber)`. -/
def AckPacket.bytes (p : AckPacket) : Bytes :=
  be16 4 ++ be16 p.blockNumber

/-- Embeds `tftpError` (src/specification.go lines 44-47): an RFC error code
together with a message (the bytes of the Go error's string). -/
structure tftpError where
  errorCode : Nat
  errorMsg : Bytes
deriving DecidableEq

/-- Embeds `tftpError.fmt` (src/specification.go lines 49-57): same code,
message extended with ": " and the formatted text. -/
def tftpError.fmtMsg (e : tftpError) (msg : Bytes) : tftpError :=
  ⟨e.errorCode, e.errorMsg ++ strBytes ": " ++ msg⟩

/-- Embeds `errNotDef` (src/specification.go line 64). -/
def errNotDef : tftpError := ⟨0, strBytes "undefined"⟩

/-- Embeds `errNoFile` (src/specification.go line 65). -/
def errNoFile : tftpError := ⟨1, strBytes "file not found"⟩

/-- Embeds `errAccess` (src/specification.go line 66). -/
def errAccess : tftpError := ⟨3, strBytes "access violation"⟩

/-- Embeds `errMemory` (src/specification.go line 67). -/
def errMemory : tftpError := ⟨4, strBytes "disk full or allocation exceeded"⟩

/-- Embeds `errOperation` (src/specification.go line 68). -/
def errOperation : tftpError := ⟨5, strBytes "illegal TFTP operation"⟩

/-- Embeds `errTID` (src/specification.go line 69). -/
def errTID : tftpError := ⟨6, strBytes "unknown transfer ID"⟩

/-- Embeds `errFileExists` (src/specification.go line 70). -/
def errFileExists : tftpError := ⟨7, strBytes "file already exists"⟩

/-- Embeds `errNoUser` (src/specification.go line 71). -/
def errNoUser : tftpError := ⟨8, strBytes "no such user"⟩

/-- Outcome kinds of `os.OpenFile` as the source discriminates them with
`os.IsExist`, `os.IsNotExist` and `os.IsPermission`. -/
inductive OsErrorKind
  | isExist
  | isNotExist
  | isPermission
  | otherFailure
deriving DecidableEq

/-- Embeds `ftpOpenFileError` (src/responsewriter.go lines 32-44): maps the
OS failure of opening the requested file to a `tftpError`. -/
def ftpOpenFileError : OsErrorKind → tftpError
  | .isExist => errFileExists
  | .isNotExist => errNoFile
  | .isPermission => errAccess
  | .otherFailure => errNotDef.fmtMsg (strBytes "error occurred while opening file")

/-- Embeds `ErrorPacket` (src/unnamed/part_001 lines 227-230): the carried
`tftpError` record and the raw wire bytes. -/
structure ErrorPacket where
  err : tftpError
  raw : Bytes
deriving DecidableEq

/-- Appends a big-endian `uint16` to a write buffer, one
`binary.Write(buffer, binary.BigEndian, x)` call for a two-byte value. -/
def binaryWriteU16 (buffer : Bytes) (n : Nat) : Bytes :=
  buffer ++ be16 n

/-- Appends raw bytes to a write buffer, one
`binary.Write(buffer, binary.BigEndian, d)` call for a byte slice. -/
def binaryWriteBytes (buffer : Bytes) (d : Bytes) : Bytes :=
  buffer ++ d

/-- Embeds `createErrorPacket` (src/unnamed/part_001 lines 232-263): buffer
writes of the ERROR opcode (5), the error code, the message bytes of the
carried error, and a single terminating null. The Go error path of
`binary.Write` is unreachable here because every written value has a fixed
binary size, so the success branch is the whole function. -/
def createErrorPacket (e : tftpError) : ErrorPacket :=
  let buffer : Bytes := []
  let buffer := binaryWriteU16 buffer 5
  let buffer := binaryWriteU16 buffer e.errorCode
  let buffer := binaryWriteBytes buffer e.errorMsg
  let buffer := binaryWriteBytes buffer [0]
  ⟨e, buffer⟩

/-- Embeds `internalErrorPacket` (src/unnamed/part_001 lines 270-287):
literal opcode bytes, a zero error code, the fixed message, one null. -/
def internalErrorPacket : ErrorPacket :=
  let raw := binaryWriteBytes (binaryWriteBytes (binaryWriteBytes (binaryWriteBytes []
    [0x00, 0x05]) [0x00, 0x00]) (strBytes "internal server error")) [0x00]
  ⟨⟨0, strBytes "internal server error"⟩, raw⟩

/-- Embeds `backupError` (src/unnamed/part_000 lines 170-182): the hand-rolled
fallback ERROR packet, whose literal wire bytes are
`[0x00, 0x05, 0x00, 0x01] ++ message ++ [0x00]` while the record it carries
states error code 0. -/
def backupError : ErrorPacket :=
  let backup := ([0x00, 0x05, 0x00, 0x01] ++ strBytes "server not implemented") ++ [0x00]
  ⟨⟨0, strBytes "server not implemented"⟩, backup⟩

/-!
Session response writers (src/responsewriter.go). The file stream the
writers consume is the abstract contract of section 4.2 of the spec that
`blockStreamer` implements over the OS: for an RRQ session the state is
the list of file bytes not yet read, a `Read` into a 512-byte buffer
returning the next `min 512 remaining` bytes; for a WRQ session the state
is the list of bytes written so far, a `Write` appending its argument and
succeeding. Response writer errors all surface as the raw bytes of
`internalErrorPacket`.
-/

/-- Raw bytes every failing branch of a response writer returns
(`internalErrorPacket().raw` in src/responsewriter.go). -/
def internalErrorRaw : Bytes := internalErrorPacket.raw

/-- Embeds `RrqResponseWriter.nextBlockNumber` (src/responsewriter.go lines
96-118): RRQ yields block 1, ACK yields the received block plus one with
`uint16` wrap-around, anything else is the illegal-operation error. -/
def rrqNextBlockNumber (p : Packet) : Except String Nat :=
  match readOpCode p with
  | .error e => .error e
  | .ok op =>
    if op = 1 then .ok 1
    else if op = 4 then
      match readBlockNumber p with
      | .error e => .error e
      | .ok n => .ok ((n + 1) % 65536)
    else .error "expected packet of type RRQ or ACK"

/-- Embeds `RrqResponseWriter.WriteResponse` (src/responsewriter.go lines
60-90): read up to 512 bytes from the file stream (advancing it before the
packet is even examined), compute the next block number from the received
packet, and emit the DATA packet; on a block-number error the internal
error raw is returned, with the stream already advanced. -/
def rrqWriteResponse (stream : Bytes) (p : Packet) : Bytes × Bytes :=
  let data := stream.take 512
  let rest := stream.drop 512
  match rrqNextBlockNumber p with
  | .error _ => (internalErrorRaw, rest)
  | .ok bn => ((createDataPacket bn data).bytes, rest)

/-- Embeds `WrqResponseWriter.nextBlockNumber` (src/responsewriter.go lines
167-185): the opcode-read error is discarded (a failed read leaves the
opcode at its zero value, falling to the default branch); WRQ yields block
0, DATA yields the block number carried by the packet, anything else is
the illegal-operation error. -/
def wrqNextBlockNumber (p : Packet) : Except String Nat :=
  let op := match readOpCode p with
    | .ok o => o
    | .error _ => 0
  if op = 2 then .ok 0
  else if op = 3 then readBlockNumber p
  else .error "expected packet of type WRQ or DATA"

/-- Embeds `WrqResponseWriter.WriteResponse` (src/responsewriter.go lines
134-161): compute the block number from the packet; when it is nonzero,
parse the DATA packet and append its payload to the file; in every success
case answer with the ACK of that block number. No comparison with an
expected block number is performed. -/
def wrqWriteResponse (file : Bytes) (p : Packet) : Bytes × Bytes :=
  match wrqNextBlockNumber p with
  | .error _ => (internalErrorRaw, file)
  | .ok bn =>
    if bn ≠ 0 then
      match parseDataPacket p with
      | .error _ => (internalErrorRaw, file)
      | .ok dp => ((createAckPacket bn).bytes, file ++ dp.data)
    else
      ((createAckPacket bn).bytes, file)

/-- The session's tagged response writer: an RRQ writer owning the unread
remainder of its file, or a WRQ writer owning the bytes written so far
(src/responsewriter.go `RrqResponseWriter` / `WrqResponseWriter`). -/
inductive WriterState
  | rrq (stream : Bytes)
  | wrq (file : Bytes)
deriving DecidableEq

/-- Dispatches `ResponseWriter.WriteResponse` over the tagged writer. -/
def writeResponse : WriterState → Packet → Bytes × WriterState
  | .rrq s, p =>
    let r := rrqWriteResponse s p
    (r.1, .rrq r.2)
  | .wrq f, p =>
    let r := wrqWriteResponse f p
    (r.1, .wrq r.2)

/-- Embeds the session-relevant state of `HandlerObject`
(src/unnamed/part_005 lines 32-49): the bound remote client address and
the response writer. -/
structure HandlerObject where
  remoteAddr : Nat
  writer : WriterState
deriving DecidableEq

/-- Embeds `HandlerObject.Handle` together with `HandlerObject.sendPacket`
(src/unnamed/part_005 lines 145-152 and 194-201): every received packet,
from any source, is given to the response writer, and the writer's
response is sent with `WriteTo(pak, handlerObject.remoteAddr)` — always to
the bound remote address. The result is the datagram sent (destination
address and bytes) and the updated handler. -/
def Handle (h : HandlerObject) (p : Packet) : (Nat × Bytes) × HandlerObject :=
  let r := writeResponse h.writer p
  ((h.remoteAddr, r.1), ⟨h.remoteAddr, r.2⟩)

/-- Embeds the request-parse-failure branch of
`HandlerObject.setupPacketHandler` (src/unnamed/part_005 lines 129-135):
when `parseRequestPacket` fails, the session is torn down with
`errNotDef.fmt(...)`, an UNDEFINED-class error; `some` carries that
classification, `none` means parsing succeeded. -/
def setupClassifyParseFailure (p : Packet) : Option tftpError :=
  match parseRequestPacket p with
  | .error _ =>
    some (errNotDef.fmtMsg
      (strBytes "error occurred while reading opcode in Request packet"))
  | .ok _ => none

/-- Modelled from the spec: the repository contains no RRQ/WRQ encoder
(request packets arrive from clients over the wire), so the wire layout of
section 6 of the spec — two-byte opcode, filename, null, mode, null — is
the encoding side of the request round-trip. -/
def requestBytes (op : Nat) (filename mode : Bytes) : Bytes :=
  be16 op ++ filename ++ [0] ++ mode ++ [0]

/-- Runs a WRQ session over a list of arriving packets: each packet is fed
to `wrqWriteResponse` in turn, threading the file state, collecting the
raw responses the session sends. This is the per-packet loop of
`HandlerObject.Start` (src/unnamed/part_005 lines 71-91) restricted to the
response writer's observable behaviour. -/
def wrqRun (file : Bytes) : List Packet → List Bytes × Bytes
  | [] => ([], file)
  | p :: ps =>
    let r := wrqWriteResponse file p
    let rest := wrqRun r.2 ps
    (r.1 :: rest.1, rest.2)

/-- Fuel-indexed 512-byte chunking of a file; with fuel at least the file
length it yields the successive `Read` results of the file-stream contract:
full 512-byte blocks followed by one final short (possibly empty) block. -/
def chunksAux : Nat → Bytes → List Bytes
  | 0, s => [s]
  | fuel + 1, s =>
    if s.length < 512 then [s]
    else s.take 512 :: chunksAux fuel (s.drop 512)

/-- The 512-byte blocks an RRQ session reads from a file of these bytes. -/
def chunks (s : Bytes) : List Bytes := chunksAux s.length s

/-- Block number a response writer derives from a driving packet, defaulting
to 0 on error; used by the cooperative client model to acknowledge the DATA
packet it was just sent. -/
def rrqBn (p : Packet) : Nat :=
  match rrqNextBlockNumber p with
  | .ok b => b
  | .error _ => 0

/-- The ACK datagram a cooperative client sends for block `b`. -/
def ackPacketFor (b : Nat) : Packet :=
  ⟨0, (createAckPacket b).bytes⟩

/-- Fuel-indexed complete RRQ session with an RFC-compliant client: the
server answers the current packet with `rrqWriteResponse`; the client
acknowledges every DATA it receives, up to and including the final short
one (the first DATA whose payload is under 512 bytes, i.e. the first sent
while the stream held fewer than 512 bytes), after which the client stops
sending and dallies. The server's answer to that final ACK — whatever the
code produces — is the last entry of the run. No server-side stopping rule
is imposed: the run ends only because the client sends nothing further. -/
def rrqGoAux : Nat → Bytes → Packet → List Bytes
  | 0, s, p =>
    [(rrqWriteResponse s p).1, (rrqWriteResponse (s.drop 512) (ackPacketFor (rrqBn p))).1]
  | fuel + 1, s, p =>
    if s.length < 512 then
      [(rrqWriteResponse s p).1, (rrqWriteResponse (s.drop 512) (ackPacketFor (rrqBn p))).1]
    else (rrqWriteResponse s p).1 :: rrqGoAux fuel (s.drop 512) (ackPacketFor (rrqBn p))

/-- Everything the server sends in a complete RRQ session on a file of
these bytes, starting from the request packet `p`: the client acknowledges
each DATA including the final short one, and the server's answer to that
final ACK is included. -/
def rrqGo (s : Bytes) (p : Packet) : List Bytes :=
  rrqGoAux s.length s p


lemma readOpCode_ack (a n : Nat) : readOpCode ⟨a, (createAckPacket n).bytes⟩ = .ok 4 := by
  simp [readOpCode, AckPacket.bytes, createAckPacket, be16]

lemma readBlockNumber_ack (a n : Nat) (hn : n < 65536) :
    readBlockNumber ⟨a, (createAckPacket n).bytes⟩ = .ok n := by
  simp [readBlockNumber, AckPacket.bytes, createAckPacket, be16]
  omega

lemma readOpCode_data (a n : Nat) (d : Bytes) :
    readOpCode ⟨a, (createDataPacket n d).bytes⟩ = .ok 3 := by
  simp [readOpCode, DataPacket.bytes, createDataPacket, be16]

lemma readBlockNumber_data (a n : Nat) (d : Bytes) (hn : n < 65536) :
    readBlockNumber ⟨a, (createDataPacket n d).bytes⟩ = .ok n := by
  simp [readBlockNumber, DataPacket.bytes, createDataPacket, be16]
  omega

lemma readData_data (a n : Nat) (d : Bytes) :
    readData ⟨a, (createDataPacket n d).bytes⟩ = .ok d := by
  simp [readData, DataPacket.bytes, createDataPacket, be16]

lemma readDataOpCode_data (a n : Nat) (d : Bytes) :
    readDataOpCode ⟨a, (createDataPacket n d).bytes⟩ = .ok () := by
  unfold readDataOpCode
  rw [readOpCode_data]
  rfl

lemma parseDataPacket_roundtrip (a n : Nat) (d : Bytes) (hn : n < 65536) :
    parseDataPacket ⟨a, (createDataPacket n d).bytes⟩ = .ok (createDataPacket n d) := by
  unfold parseDataPacket
  rw [readDataOpCode_data, readBlockNumber_data a n d hn, readData_data]
  rfl

lemma rrqNextBlockNumber_ack (a n : Nat) (hn : n < 65536) :
    rrqNextBlockNumber ⟨a, (createAckPacket n).bytes⟩ = .ok ((n + 1) % 65536) := by
  unfold rrqNextBlockNumber
  rw [readOpCode_ack, readBlockNumber_ack a n hn]
  rfl

lemma wrqNextBlockNumber_data (a n : Nat) (d : Bytes) (hn : n < 65536) :
    wrqNextBlockNumber ⟨a, (createDataPacket n d).bytes⟩ = .ok n := by
  unfold wrqNextBlockNumber
  rw [readOpCode_data, readBlockNumber_data a n d hn]
  rfl


lemma rrqWriteResponse_ok (s : Bytes) (p : Packet) (b : Nat)
    (hp : rrqNextBlockNumber p = .ok b) :
    rrqWriteResponse s p = ((createDataPacket b (s.take 512)).bytes, s.drop 512) := by
  unfold rrqWriteResponse
  rw [hp]

lemma rrqWriteResponse_snd (s : Bytes) (p : Packet) :
    (rrqWriteResponse s p).2 = s.drop 512 := by
  unfold rrqWriteResponse
  cases rrqNextBlockNumber p <;> rfl

lemma wrqWriteResponse_req (file : Bytes) (p : Packet) (hw : readOpCode p = .ok 2) :
    wrqWriteResponse file p = ((createAckPacket 0).bytes, file) := by
  unfold wrqWriteResponse wrqNextBlockNumber
  rw [hw]
  rfl

lemma wrqWriteResponse_data (file d : Bytes) (a n : Nat) (hn0 : n ≠ 0) (hn : n < 65536) :
    wrqWriteResponse file ⟨a, (createDataPacket n d).bytes⟩
      = ((createAckPacket n).bytes, file ++ d) := by
  unfold wrqWriteResponse
  rw [wrqNextBlockNumber_data a n d hn]
  simp only [hn0, ne_eq, not_false_eq_true, if_true]
  rw [parseDataPacket_roundtrip a n d hn]
  rfl

lemma wrqWriteResponse_data0 (file d : Bytes) (a : Nat) :
    wrqWriteResponse file ⟨a, (createDataPacket 0 d).bytes⟩
      = ((createAckPacket 0).bytes, file) := by
  unfold wrqWriteResponse
  rw [wrqNextBlockNumber_data a 0 d (by omega)]
  rfl

lemma splitAtNull_append (f r : Bytes) (hf : 0 ∉ f) :
    splitAtNull (f ++ 0 :: r) = some (f, r) := by
  induction f with
  | nil => simp [splitAtNull]
  | cons a t ih =>
    have ha : a ≠ 0 := by intro h; exact hf (h ▸ List.mem_cons_self a t)
    have ht : 0 ∉ t := fun h => hf (List.mem_cons_of_mem a h)
    simp [splitAtNull, ha, ih ht]

lemma dropWhile_zero_of_not_mem (l : Bytes) (hl : 0 ∉ l) :
    l.dropWhile (fun b => b == 0) = l := by
  cases l with
  | nil => rfl
  | cons a t =>
    have ha : a ≠ 0 := by intro h; exact hl (h ▸ List.mem_cons_self a t)
    simp [List.dropWhile_cons, ha]

lemma trimRightZeros_append (f : Bytes) (hf : 0 ∉ f) :
    trimRightZeros (f ++ [0]) = f := by
  unfold trimRightZeros
  rw [List.reverse_append]
  simp only [List.reverse_cons, List.reverse_nil, List.nil_append, List.singleton_append]
  rw [List.dropWhile_cons]
  simp only [beq_self_eq_true, if_true]
  rw [dropWhile_zero_of_not_mem _ (by simpa using hf)]
  simp

lemma readNetasciiString_append (f r : Bytes) (hf : 0 ∉ f) :
    readNetasciiString (f ++ 0 :: r) = .ok (f, r) := by
  unfold readNetasciiString
  rw [splitAtNull_append f r hf]
  simp [trimRightZeros_append f hf]


lemma modeValid_no_zero (mode : Bytes) (flag : encodingFlag)
    (hm : modeToEncodingFlag mode = .ok flag) : 0 ∉ mode := by
  intro h0
  have h0m : (0 : Nat) ∈ toLowerAscii mode := List.mem_map.mpr ⟨0, h0, rfl⟩
  unfold modeToEncodingFlag at hm
  by_cases h1 : toLowerAscii mode = strBytes "netascii"
  · rw [h1] at h0m; revert h0m; decide
  · by_cases h2 : toLowerAscii mode = strBytes "octet"
    · rw [h2] at h0m; revert h0m; decide
    · simp [h1, h2] at hm

lemma modeValid_length (mode : Bytes) (flag : encodingFlag)
    (hm : modeToEncodingFlag mode = .ok flag) : 5 ≤ mode.length := by
  unfold modeToEncodingFlag at hm
  by_cases h1 : toLowerAscii mode = strBytes "netascii"
  · have hl : mode.length = (strBytes "netascii").length := by
      simpa [toLowerAscii] using congrArg List.length h1
    rw [hl]; decide
  · by_cases h2 : toLowerAscii mode = strBytes "octet"
    · have hl : mode.length = (strBytes "octet").length := by
        simpa [toLowerAscii] using congrArg List.length h2
      rw [hl]; decide
    · simp [h1, h2] at hm

lemma opCodeToOpenFlag_lt (op : Nat) (fl : openFlag)
    (hop : opCodeToOpenFlag op = .ok fl) : op < 65536 := by
  unfold opCodeToOpenFlag at hop
  by_cases h1 : op = 1
  · omega
  · by_cases h2 : op = 2
    · omega
    · simp [h1, h2] at hop

lemma readOpCode_request (a op : Nat) (f mode : Bytes) (hople : op < 65536) :
    readOpCode ⟨a, requestBytes op f mode⟩ = .ok op := by
  simp [readOpCode, requestBytes, be16]
  omega

lemma requestBytes_length (op : Nat) (f mode : Bytes) :
    (requestBytes op f mode).length = f.length + mode.length + 4 := by
  simp [requestBytes, be16]
  omega

lemma requestBytes_drop2 (op : Nat) (f mode : Bytes) :
    (requestBytes op f mode).drop 2 = f ++ 0 :: (mode ++ [0]) := by
  simp [requestBytes, be16]

lemma parseRequestPacket_roundtrip (a op : Nat) (fl : openFlag) (f mode : Bytes)
    (flag : encodingFlag) (hop : opCodeToOpenFlag op = .ok fl) (hf : 0 ∉ f)
    (hm : modeToEncodingFlag mode = .ok flag) :
    parseRequestPacket ⟨a, requestBytes op f mode⟩ = .ok ⟨fl, f, flag⟩ := by
  have hople : op < 65536 := opCodeToOpenFlag_lt op fl hop
  have h0m : 0 ∉ mode := modeValid_no_zero mode flag hm
  have hlm : 5 ≤ mode.length := modeValid_length mode flag hm
  have hlen : ¬ ((⟨a, requestBytes op f mode⟩ : Packet).data.length < 6) := by
    show ¬ ((requestBytes op f mode).length < 6)
    rw [requestBytes_length]
    omega
  have hdrop : (⟨a, requestBytes op f mode⟩ : Packet).data.drop 2 = f ++ 0 :: (mode ++ [0]) :=
    requestBytes_drop2 op f mode
  have hrd1 : readNetasciiString (f ++ 0 :: (mode ++ [0])) = .ok (f, mode ++ [0]) :=
    readNetasciiString_append f (mode ++ [0]) hf
  have hrd2 : readNetasciiString (mode ++ [0]) = .ok (mode, []) :=
    readNetasciiString_append mode [] h0m
  unfold parseRequestPacket Packet.readOpenFlag Packet.readFilename Packet.readEncodingFlag
  rw [readOpCode_request a op f mode hople]
  simp only [hop, hlen, hdrop, hrd1, hrd2, hm, if_false, ite_false]


lemma wrqRun_blocks (src : Nat) (file : Bytes) (blocks : List (Nat × Bytes))
    (h : ∀ b ∈ blocks, b.1 ≠ 0 ∧ b.1 < 65536) :
    wrqRun file (blocks.map fun b => ⟨src, (createDataPacket b.1 b.2).bytes⟩)
      = (blocks.map fun b => (createAckPacket b.1).bytes,
         file ++ (blocks.map Prod.snd).flatten) := by
  induction blocks generalizing file with
  | nil => simp [wrqRun]
  | cons b bs ih =>
    obtain ⟨hb0, hblt⟩ := h b (List.mem_cons_self b bs)
    have hrest : ∀ x ∈ bs, x.1 ≠ 0 ∧ x.1 < 65536 := fun x hx => h x (List.mem_cons_of_mem b hx)
    simp only [List.map_cons, wrqRun]
    rw [wrqWriteResponse_data file b.2 src b.1 hb0 hblt]
    rw [ih (file ++ b.2) hrest]
    simp

lemma chunksAux_length (fuel : Nat) : ∀ s : Bytes, s.length ≤ fuel →
    (chunksAux fuel s).length = s.length / 512 + 1 := by
  induction fuel with
  | zero =>
    intro s hs
    have h0 : s.length = 0 := by omega
    simp [chunksAux, h0]
  | succ fuel ih =>
    intro s hs
    by_cases hlt : s.length < 512
    · simp [chunksAux, hlt]
      omega
    · have hdl : (s.drop 512).length ≤ fuel := by
        simp [List.length_drop]
        omega
      simp [chunksAux, hlt, ih (s.drop 512) hdl, List.length_drop]
      omega

lemma getLast?_cons_ne_nil (l : List Bytes) (b : Bytes) (h : l ≠ []) :
    (b :: l).getLast? = l.getLast? := by
  cases l with
  | nil => exact absurd rfl h
  | cons c t => simp [List.getLast?_cons_cons]

lemma chunksAux_ne_nil (fuel : Nat) (s : Bytes) : chunksAux fuel s ≠ [] := by
  cases fuel with
  | zero => simp [chunksAux]
  | succ fuel =>
    by_cases hlt : s.length < 512 <;> simp [chunksAux, hlt]

lemma chunksAux_dropLast (fuel : Nat) : ∀ s : Bytes, s.length ≤ fuel →
    ∀ c ∈ (chunksAux fuel s).dropLast, c.length = 512 := by
  induction fuel with
  | zero =>
    intro s hs c hc
    simp [chunksAux] at hc
  | succ fuel ih =>
    intro s hs c hc
    by_cases hlt : s.length < 512
    · simp [chunksAux, hlt] at hc
    · have hdl : (s.drop 512).length ≤ fuel := by
        simp [List.length_drop]
        omega
      rw [chunksAux] at hc
      simp only [hlt, if_false, ite_false] at hc
      rw [List.dropLast_cons_of_ne_nil (chunksAux_ne_nil fuel (s.drop 512))] at hc
      rcases List.mem_cons.mp hc with h | h
      · rw [h]
        simp [List.length_take]
        omega
      · exact ih (s.drop 512) hdl c h

lemma chunksAux_getLast (fuel : Nat) : ∀ s : Bytes, s.length ≤ fuel →
    (chunksAux fuel s).getLast?.map List.length = some (s.length % 512) := by
  induction fuel with
  | zero =>
    intro s hs
    have h0 : s.length = 0 := by omega
    simp [chunksAux, h0]
  | succ fuel ih =>
    intro s hs
    by_cases hlt : s.length < 512
    · simp [chunksAux, hlt]
      omega
    · have hdl : (s.drop 512).length ≤ fuel := by
        simp [List.length_drop]
        omega
      rw [chunksAux]
      simp only [hlt, if_false, ite_false]
      rw [getLast?_cons_ne_nil (chunksAux fuel (s.drop 512)) (s.take 512)
        (chunksAux_ne_nil fuel (s.drop 512))]
      rw [ih (s.drop 512) hdl]
      simp [List.length_drop]
      omega


lemma rrqBn_eq (p : Packet) (b : Nat) (hp : rrqNextBlockNumber p = .ok b) : rrqBn p = b := by
  unfold rrqBn
  rw [hp]

lemma rrqGoAux_spec (fuel : Nat) : ∀ (s : Bytes) (p : Packet) (b : Nat),
    s.length ≤ fuel → b < 65536 → rrqNextBlockNumber p = .ok b →
    rrqGoAux fuel s p
      = ((List.range (chunksAux fuel s).length).map
          (fun i => (createDataPacket ((b + i) % 65536) ((chunksAux fuel s).getD i [])).bytes))
        ++ [(createDataPacket ((b + (chunksAux fuel s).length) % 65536) []).bytes] := by
  induction fuel with
  | zero =>
    intro s p b hs hb hp
    have hsnil : s = [] := List.eq_nil_of_length_eq_zero (by omega)
    subst hsnil
    have hp' : rrqNextBlockNumber (ackPacketFor (rrqBn p)) = .ok ((b + 1) % 65536) := by
      rw [rrqBn_eq p b hp]
      exact rrqNextBlockNumber_ack 0 b hb
    rw [rrqGoAux, rrqWriteResponse_ok [] p b hp,
      rrqWriteResponse_ok (List.drop 512 []) (ackPacketFor (rrqBn p)) ((b + 1) % 65536) hp']
    simp [chunksAux, Nat.mod_eq_of_lt hb, List.range_succ]
  | succ fuel ih =>
    intro s p b hs hb hp
    have hp' : rrqNextBlockNumber (ackPacketFor (rrqBn p)) = .ok ((b + 1) % 65536) := by
      rw [rrqBn_eq p b hp]
      exact rrqNextBlockNumber_ack 0 b hb
    by_cases hlt : s.length < 512
    · have hch : chunksAux (fuel + 1) s = [s] := by
        rw [chunksAux]
        simp [hlt]
      have hdrop : s.drop 512 = [] := List.drop_eq_nil_of_le (by omega)
      rw [rrqGoAux]
      simp only [hlt, ite_true, if_true]
      rw [rrqWriteResponse_ok s p b hp,
        rrqWriteResponse_ok (s.drop 512) (ackPacketFor (rrqBn p)) ((b + 1) % 65536) hp',
        hch, hdrop]
      simp [Nat.mod_eq_of_lt hb, List.take_of_length_le (le_of_lt hlt), List.range_succ]
    · have hs' : (s.drop 512).length ≤ fuel := by
        simp [List.length_drop]
        omega
      have hb' : (b + 1) % 65536 < 65536 := Nat.mod_lt _ (by omega)
      have hch : chunksAux (fuel + 1) s = s.take 512 :: chunksAux fuel (s.drop 512) := by
        rw [chunksAux]
        simp [hlt]
      rw [rrqGoAux]
      simp only [hlt, ite_false, if_false]
      rw [rrqWriteResponse_ok s p b hp,
        ih (s.drop 512) (ackPacketFor (rrqBn p)) ((b + 1) % 65536) hs' hb' hp', hch]
      rw [List.length_cons, List.range_succ_eq_map, List.map_cons, List.map_map,
        List.cons_append]
      congr 1
      · simp [Nat.mod_eq_of_lt hb]
      · congr 1
        · apply List.map_congr_left
          intro i hi
          have harith : ((b + 1) % 65536 + i) % 65536 = (b + (i + 1)) % 65536 := by omega
          simp [Function.comp, List.getD_cons_succ, harith]
        · have harith2 : ((b + 1) % 65536 + (chunksAux fuel (s.drop 512)).length) % 65536
              = (b + ((chunksAux fuel (s.drop 512)).length + 1)) % 65536 := by omega
          rw [harith2]


lemma take4_data_ne (bn c : Nat) (d : Bytes) :
    ((createDataPacket bn d).bytes).take 4 ≠ [0, 5, 0, c] := by
  simp [DataPacket.bytes, createDataPacket, be16, List.take]

lemma take4_ack_ne (bn c : Nat) : ((createAckPacket bn).bytes).take 4 ≠ [0, 5, 0, c] := by
  simp [AckPacket.bytes, createAckPacket, be16, List.take]

lemma take4_internal_ne (c : Nat) (hc : c ≠ 0) : internalErrorRaw.take 4 ≠ [0, 5, 0, c] := by
  intro h
  have h4 : internalErrorRaw.take 4 = [0, 5, 0, 0] := by decide
  rw [h4] at h
  simp at h
  exact hc h.symm

lemma writeResponse_forms (w : WriterState) (p : Packet) :
    (writeResponse w p).1 = internalErrorRaw
  ∨ (∃ bn d, (writeResponse w p).1 = (createDataPacket bn d).bytes)
  ∨ (∃ bn, (writeResponse w p).1 = (createAckPacket bn).bytes) := by
  cases w with
  | rrq s =>
    cases h : rrqNextBlockNumber p with
    | error e =>
      left
      simp [writeResponse, rrqWriteResponse, h]
    | ok bn =>
      right; left
      exact ⟨bn, s.take 512, by simp [writeResponse, rrqWriteResponse, h]⟩
  | wrq f =>
    cases h : wrqNextBlockNumber p with
    | error e =>
      left
      simp [writeResponse, wrqWriteResponse, h]
    | ok bn =>
      by_cases hbn : bn = 0
      · right; right
        exact ⟨bn, by simp [writeResponse, wrqWriteResponse, h, hbn]⟩
      · cases hp : parseDataPacket p with
        | error e =>
          left
          simp [writeResponse, wrqWriteResponse, h, hbn, hp]
        | ok dp =>
          right; right
          exact ⟨bn, by simp [writeResponse, wrqWriteResponse, h, hbn, hp]⟩

/-- C2: the code performs no transfer-id check at the session endpoint: every
arriving packet, whatever its source address, is processed by the session's
response writer and the response is sent to the bound client address; no
ERROR carrying the UNKNOWN_TID code (6 in the source, 5 in RFC 1350) is ever
produced, and a foreign DATA packet does disturb the session, appending its
payload to the session's file. -/
theorem c2_no_wrong_tid_handling :
    (∀ (h : HandlerObject) (p : Packet), (Handle h p).1.1 = h.remoteAddr)
  ∧ (∀ (h : HandlerObject) (p : Packet),
        (Handle h p).1.2.take 4 ≠ [0, 5, 0, 5] ∧ (Handle h p).1.2.take 4 ≠ [0, 5, 0, 6])
  ∧ Handle ⟨1, .wrq []⟩ ⟨2, (createDataPacket 1 [42]).bytes⟩
      = ((1, (createAckPacket 1).bytes), ⟨1, .wrq [42]⟩) := by
  refine ⟨fun h p => rfl, fun h p => ?_, by decide⟩
  have hforms := writeResponse_forms h.writer p
  have hresp : (Handle h p).1.2 = (writeResponse h.writer p).1 := rfl
  rcases hforms with hf | ⟨bn, d, hf⟩ | ⟨bn, hf⟩ <;> rw [hresp, hf] <;>
    exact ⟨by first | exact take4_internal_ne 5 (by omega) | exact take4_data_ne _ 5 _ | exact take4_ack_ne _ 5,
           by first | exact take4_internal_ne 6 (by omega) | exact take4_data_ne _ 6 _ | exact take4_ack_ne _ 6⟩

theorem c2_witness :
    (Handle ⟨1, WriterState.wrq []⟩ ⟨2, (createDataPacket 1 [42]).bytes⟩).1.1
      = (⟨1, WriterState.wrq []⟩ : HandlerObject).remoteAddr :=
  c2_no_wrong_tid_handling.1 ⟨1, WriterState.wrq []⟩ ⟨2, (createDataPacket 1 [42]).bytes⟩


/-- C1: the code's error taxonomy does not carry the RFC 1350 numbering the
spec's table claims: from ACCESS_VIOLATION on every kind's code is the RFC
value plus one, so a failed open of an existing WRQ target is reported with
code 7 (claim: 6) and a permission denial with code 3 (claim: 2). -/
theorem c1_error_code_taxonomy :
    errNotDef.errorCode = 0 ∧ errNoFile.errorCode = 1 ∧ errAccess.errorCode = 3
  ∧ errMemory.errorCode = 4 ∧ errOperation.errorCode = 5 ∧ errTID.errorCode = 6
  ∧ errFileExists.errorCode = 7 ∧ errNoUser.errorCode = 8
  ∧ (ftpOpenFileError .isExist).errorCode = 7
  ∧ (ftpOpenFileError .isPermission).errorCode = 3
  ∧ ¬ ((ftpOpenFileError .isExist).errorCode = 6)
  ∧ ¬ ((ftpOpenFileError .isPermission).errorCode = 2) := by
  decide

/-- C3: in an RRQ session that has sent DATA with block number n + 1, a
duplicate ACK carrying block number n does not leave the server silent: the
code reads the next 512 bytes from the file stream (advancing it) and sends
a fresh DATA packet labelled n + 1 carrying those newly read bytes. -/
theorem c3_duplicate_ack_triggers_send (s : Bytes) (a n : Nat) (hn : n + 1 < 65536) :
    (rrqWriteResponse s ⟨a, (createAckPacket n).bytes⟩).1
        = (createDataPacket (n + 1) (s.take 512)).bytes
  ∧ (rrqWriteResponse s ⟨a, (createAckPacket n).bytes⟩).1 ≠ []
  ∧ (rrqWriteResponse s ⟨a, (createAckPacket n).bytes⟩).2 = s.drop 512 := by
  have hn' : n < 65536 := by omega
  have h := rrqWriteResponse_ok s ⟨a, (createAckPacket n).bytes⟩ ((n + 1) % 65536)
    (rrqNextBlockNumber_ack a n hn')
  rw [Nat.mod_eq_of_lt hn] at h
  refine ⟨by rw [h], ?_, by rw [h]⟩
  rw [h]
  simp [DataPacket.bytes, be16]

theorem c3_witness :
    (rrqWriteResponse [7, 8, 9] ⟨0, (createAckPacket 1).bytes⟩).1
        = (createDataPacket (1 + 1) ([7, 8, 9].take 512)).bytes
  ∧ (rrqWriteResponse [7, 8, 9] ⟨0, (createAckPacket 1).bytes⟩).1 ≠ []
  ∧ (rrqWriteResponse [7, 8, 9] ⟨0, (createAckPacket 1).bytes⟩).2 = [7, 8, 9].drop 512 :=
  c3_duplicate_ack_triggers_send [7, 8, 9] 0 1 (by decide)

/-- C4: the WRQ writer performs no ordering check: a DATA packet with any
nonzero block number, however far from the expected one, has its payload
written to the file and is answered with the matching ACK (opcode 4), not
with an ERROR (opcode 5), and the session continues. -/
theorem c4_out_of_sequence_data_written (file d : Bytes) (a n : Nat)
    (h0 : n ≠ 0) (hn : n < 65536) :
    wrqWriteResponse file ⟨a, (createDataPacket n d).bytes⟩
      = ((createAckPacket n).bytes, file ++ d)
  ∧ ((createAckPacket n).bytes).take 2 = [0, 4]
  ∧ ((createAckPacket n).bytes).take 2 ≠ [0, 5] := by
  refine ⟨wrqWriteResponse_data file d a n h0 hn, ?_, ?_⟩ <;>
    simp [AckPacket.bytes, createAckPacket, be16, List.take]

theorem c4_witness :
    wrqWriteResponse [] ⟨3, (createDataPacket 7 [1, 2, 3]).bytes⟩
      = ((createAckPacket 7).bytes, [] ++ [1, 2, 3])
  ∧ ((createAckPacket 7).bytes).take 2 = [0, 4]
  ∧ ((createAckPacket 7).bytes).take 2 ≠ [0, 5] :=
  c4_out_of_sequence_data_written [] [1, 2, 3] 3 7 (by decide) (by decide)

/-- C5 counterexample: a WRQ session that receives a single DATA packet with
block number 0 and a one-byte payload sends the initial ACK(0) and one ACK
answering the DATA, but writes nothing: the code's `blockNumber != 0` guard
skips the write, so the bytes written (0) differ from the payload total (1). -/
theorem c5_counterexample :
    wrqRun [] [⟨5, [0, 2, 102, 0, 111, 99, 116, 101, 116, 0]⟩,
               ⟨5, (createDataPacket 0 [42]).bytes⟩]
      = ([(createAckPacket 0).bytes, (createAckPacket 0).bytes], [])
  ∧ ([] : Bytes).length ≠ [42].length := by
  decide

/-- C5 amended: for a WRQ session whose received DATA packets all carry
nonzero block numbers, the server sends the initial ACK(0) plus exactly one
ACK per DATA, the ACK answering DATA(n) carrying block number n, and the
bytes written to the file are exactly the concatenation of the DATA
payloads (headers excluded), so their count is the sum of the payload
lengths. -/
theorem c5_write_session_accounting (src : Nat) (wreq : Packet)
    (hw : readOpCode wreq = .ok 2) (blocks : List (Nat × Bytes))
    (h : ∀ b ∈ blocks, b.1 ≠ 0 ∧ b.1 < 65536) :
    wrqRun [] (wreq :: blocks.map fun b => ⟨src, (createDataPacket b.1 b.2).bytes⟩)
      = ((createAckPacket 0).bytes :: blocks.map fun b => (createAckPacket b.1).bytes,
         (blocks.map Prod.snd).flatten)
  ∧ ((blocks.map Prod.snd).flatten).length = (blocks.map fun b => b.2.length).sum := by
  constructor
  · simp only [wrqRun]
    rw [wrqWriteResponse_req [] wreq hw, wrqRun_blocks src [] blocks h]
    simp
  · rw [List.length_flatten]
    rw [List.map_map]
    rfl

theorem c5_witness :
    wrqRun [] (⟨5, [0, 2, 102, 0, 111, 99, 116, 101, 116, 0]⟩ ::
        [((1 : Nat), [42, 43])].map fun b => ⟨5, (createDataPacket b.1 b.2).bytes⟩)
      = ((createAckPacket 0).bytes ::
           [((1 : Nat), [42, 43])].map fun b => (createAckPacket b.1).bytes,
         ([((1 : Nat), [42, 43])].map Prod.snd).flatten)
  ∧ (([((1 : Nat), [42, 43])].map Prod.snd).flatten).length
      = ([((1 : Nat), [42, 43])].map fun b => b.2.length).sum :=
  c5_write_session_accounting 5 ⟨5, [0, 2, 102, 0, 111, 99, 116, 101, 116, 0]⟩ rfl
    [((1 : Nat), [42, 43])] (by decide)


/-- C6: decoding inverts encoding. `parseDataPacket` applied to the byte
encoding of a DATA packet with a 16-bit block number and a payload of at
most 512 bytes returns that packet; `parseRequestPacket` applied to the
wire encoding of an RRQ/WRQ whose filename is null-free and whose mode is
valid returns the open flag of the opcode, the filename with its
terminator stripped, and the mode's encoding flag. -/
theorem c6_parse_encode_roundtrip (a bn : Nat) (d : Bytes) (hbn : bn < 65536)
    (hdlen : d.length ≤ 512) (op : Nat) (fl : openFlag)
    (hop : opCodeToOpenFlag op = .ok fl) (f mode : Bytes) (hf : 0 ∉ f)
    (flag : encodingFlag) (hm : modeToEncodingFlag mode = .ok flag) :
    parseDataPacket ⟨a, (createDataPacket bn d).bytes⟩ = .ok (createDataPacket bn d)
  ∧ parseRequestPacket ⟨a, requestBytes op f mode⟩ = .ok ⟨fl, f, flag⟩ :=
  ⟨parseDataPacket_roundtrip a bn d hbn,
   parseRequestPacket_roundtrip a op fl f mode flag hop hf hm⟩

theorem c6_witness :
    parseDataPacket ⟨9, (createDataPacket 1 [104, 105, 10]).bytes⟩
        = .ok (createDataPacket 1 [104, 105, 10])
  ∧ parseRequestPacket ⟨9, requestBytes 1 (strBytes "hi.txt") (strBytes "octet")⟩
        = .ok ⟨openFlag.read, strBytes "hi.txt", encodingFlag.octet⟩ :=
  c6_parse_encode_roundtrip 9 1 [104, 105, 10] (by decide) (by decide) 1 openFlag.read rfl
    (strBytes "hi.txt") (strBytes "octet") (by decide) encodingFlag.octet rfl

/-- C7 counterexample: the request with mode "mail" is rejected, but the
session setup classifies the rejection with error code 0 (UNDEFINED, from
errNotDef), not as ILLEGAL_OPERATION — neither the source's errOperation
(code 5) nor the RFC 1350 illegal-operation code 4. -/
theorem c7_counterexample :
    (setupClassifyParseFailure ⟨9, requestBytes 1 [102] (strBytes "mail")⟩).map
        tftpError.errorCode = some 0
  ∧ errOperation.errorCode ≠ 0 ∧ (0 : Nat) ≠ 4 := by
  decide

/-- C7 amended: mode parsing succeeds exactly when the ASCII lowercasing of
the mode equals "netascii" or "octet", yielding the corresponding flag;
every other mode string is rejected, and the session setup classifies every
request-parse rejection as UNDEFINED (code 0), not ILLEGAL_OPERATION. -/
theorem c7_mode_acceptance (mode : Bytes) :
    (modeToEncodingFlag mode = .ok .netascii ↔ toLowerAscii mode = strBytes "netascii")
  ∧ (modeToEncodingFlag mode = .ok .octet ↔ toLowerAscii mode = strBytes "octet")
  ∧ ((∃ flag, modeToEncodingFlag mode = .ok flag) ↔
      (toLowerAscii mode = strBytes "netascii" ∨ toLowerAscii mode = strBytes "octet"))
  ∧ (∀ (p : Packet) (e : tftpError), setupClassifyParseFailure p = some e →
      e.errorCode = 0) := by
  have hno : strBytes "netascii" ≠ strBytes "octet" := by decide
  have hon : strBytes "octet" ≠ strBytes "netascii" := by decide
  refine ⟨?_, ?_, ?_, ?_⟩
  · by_cases h1 : toLowerAscii mode = strBytes "netascii"
    · simp [modeToEncodingFlag, h1, hno, hon]
    · by_cases h2 : toLowerAscii mode = strBytes "octet" <;>
        simp [modeToEncodingFlag, h1, h2, hno, hon]
  · by_cases h1 : toLowerAscii mode = strBytes "netascii"
    · simp [modeToEncodingFlag, h1, hno, hon]
    · by_cases h2 : toLowerAscii mode = strBytes "octet" <;>
        simp [modeToEncodingFlag, h1, h2, hno, hon]
  · by_cases h1 : toLowerAscii mode = strBytes "netascii"
    · simp [modeToEncodingFlag, h1, hno, hon]
    · by_cases h2 : toLowerAscii mode = strBytes "octet" <;>
        simp [modeToEncodingFlag, h1, h2, hno, hon]
  · intro p e he
    unfold setupClassifyParseFailure at he
    cases hpr : parseRequestPacket p with
    | error err =>
      rw [hpr] at he
      have hinj : errNotDef.fmtMsg
          (strBytes "error occurred while reading opcode in Request packet") = e :=
        Option.some.inj he
      rw [← hinj]
      rfl
    | ok r =>
      rw [hpr] at he
      exact absurd he (by simp)

theorem c7_witness :
    modeToEncodingFlag (strBytes "OcTeT") = .ok .octet :=
  ((c7_mode_acceptance (strBytes "OcTeT")).2.1).mpr (by decide)


/-- C8: lock-step block numbering with 16-bit wrap-around: the response to an
RRQ packet is DATA with block number 1; the response to ACK(n) in an RRQ
session is DATA with block number (n + 1) mod 2^16 (so after block 65535 the
transfer continues with 0, 1, ...); the response to a WRQ packet is ACK(0);
the response to DATA(n) in a WRQ session is ACK(n). -/
theorem c8_lockstep_block_numbering (s file d : Bytes) (a n : Nat) (hn : n < 65536)
    (reqR reqW : Packet) (hR : readOpCode reqR = .ok 1) (hW : readOpCode reqW = .ok 2) :
    (rrqWriteResponse s reqR).1 = (createDataPacket 1 (s.take 512)).bytes
  ∧ (rrqWriteResponse s ⟨a, (createAckPacket n).bytes⟩).1
      = (createDataPacket ((n + 1) % 65536) (s.take 512)).bytes
  ∧ (wrqWriteResponse file reqW).1 = (createAckPacket 0).bytes
  ∧ (wrqWriteResponse file ⟨a, (createDataPacket n d).bytes⟩).1
      = (createAckPacket n).bytes := by
  refine ⟨?_, ?_, ?_, ?_⟩
  · have hreq : rrqNextBlockNumber reqR = .ok 1 := by
      unfold rrqNextBlockNumber
      rw [hR]
      rfl
    rw [rrqWriteResponse_ok s reqR 1 hreq]
  · rw [rrqWriteResponse_ok s _ ((n + 1) % 65536) (rrqNextBlockNumber_ack a n hn)]
  · rw [wrqWriteResponse_req file reqW hW]
  · by_cases h0 : n = 0
    · subst h0
      rw [wrqWriteResponse_data0 file d a]
    · rw [wrqWriteResponse_data file d a n h0 hn]

theorem c8_witness :
    (rrqWriteResponse [9] ⟨0, (createAckPacket 65535).bytes⟩).1
      = (createDataPacket ((65535 + 1) % 65536) ([9].take 512)).bytes :=
  (c8_lockstep_block_numbering [9] [] [] 0 65535 (by decide)
    ⟨0, [0, 1, 102, 0, 111, 99, 116, 101, 116, 0]⟩
    ⟨0, [0, 2, 102, 0, 111, 99, 116, 101, 116, 0]⟩ rfl rfl).2.1

/-- C9: in a complete RRQ session — the client acknowledges every DATA,
including the final short one — the server sends the k = N/512 + 1
chunk-carrying DATA packets (k equals the claimed ceil(N/512) plus one
exactly when 512 divides N; every chunk but the last holds 512 bytes and
the last holds N mod 512), and then, answering the final ACK, one spurious
empty DATA numbered (1 + k) mod 2^16: WriteResponse reads 0 bytes at EOF
and has no end-of-transfer detection, so k + 1 DATA packets are sent, one
more than the claim's count. For the spec's scenario 1 (a 3-byte file) the
server sends DATA(1, [104, 105, 10]) and then DATA(2, []). -/
theorem c9_spurious_final_data (file : Bytes) (p : Packet)
    (hp : rrqNextBlockNumber p = .ok 1) :
    rrqGo file p
      = ((List.range (chunks file).length).map
          (fun i => (createDataPacket ((1 + i) % 65536) ((chunks file).getD i [])).bytes))
        ++ [(createDataPacket ((1 + (chunks file).length) % 65536) []).bytes]
  ∧ (rrqGo file p).length = (file.length / 512 + 1) + 1
  ∧ (chunks file).length = file.length / 512 + 1
  ∧ file.length / 512 + 1
      = (file.length + 511) / 512 + (if file.length % 512 = 0 then 1 else 0)
  ∧ (∀ c ∈ (chunks file).dropLast, c.length = 512)
  ∧ (chunks file).getLast?.map List.length = some (file.length % 512)
  ∧ rrqGo [104, 105, 10] ⟨7, [0, 1, 104, 105, 0, 111, 99, 116, 101, 116, 0]⟩
      = [(createDataPacket 1 [104, 105, 10]).bytes, (createDataPacket 2 []).bytes] := by
  have hlen := chunksAux_length file.length file le_rfl
  have hspec := rrqGoAux_spec file.length file p 1 le_rfl (by omega) hp
  refine ⟨hspec, ?_, hlen, ?_, ?_, ?_, ?_⟩
  · show (rrqGoAux file.length file p).length = file.length / 512 + 1 + 1
    rw [hspec, List.length_append, List.length_map, List.length_range, hlen]
    rfl
  · by_cases h0 : file.length % 512 = 0 <;> simp [h0] <;> omega
  · exact chunksAux_dropLast file.length file le_rfl
  · exact chunksAux_getLast file.length file le_rfl
  · decide

theorem c9_witness :
    (rrqGo [104, 105, 10] ⟨0, [0, 1, 102, 0, 111, 99, 116, 101, 116, 0]⟩).length
      = ([104, 105, 10].length / 512 + 1) + 1 :=
  (c9_spurious_final_data [104, 105, 10]
    ⟨0, [0, 1, 102, 0, 111, 99, 116, 101, 116, 0]⟩ rfl).2.1

lemma createErrorPacket_raw (e : tftpError) :
    (createErrorPacket e).raw = be16 5 ++ be16 e.errorCode ++ e.errorMsg ++ [0] := by
  simp [createErrorPacket, binaryWriteU16, binaryWriteBytes]

/-- C10 counterexample: the fallback `backupError` packet is not internally
consistent: its raw encoding carries the wire error code 1 while the
`tftpError` record it carries states error code 0. -/
theorem c10_counterexample :
    ¬ (backupError.raw
        = be16 5 ++ be16 backupError.err.errorCode ++ backupError.err.errorMsg ++ [0]) := by
  decide

/-- C10 amended: ERROR packets built by `createErrorPacket` (from any error
record) and by `internalErrorPacket` are internally consistent — opcode 5
big-endian, then the big-endian code equal to the record's errorCode, the
message bytes, and a single trailing null — while `backupError` encodes wire
code 1 although its record states code 0 (its other fields are as claimed). -/
theorem c10_error_packet_consistency :
    (∀ e : tftpError, e.errorCode < 65536 →
        (createErrorPacket e).raw = be16 5 ++ be16 e.errorCode ++ e.errorMsg ++ [0]
      ∧ (createErrorPacket e).err = e)
  ∧ internalErrorPacket.raw
      = be16 5 ++ be16 internalErrorPacket.err.errorCode
          ++ internalErrorPacket.err.errorMsg ++ [0]
  ∧ backupError.raw = be16 5 ++ be16 1 ++ backupError.err.errorMsg ++ [0]
  ∧ backupError.err.errorCode = 0 := by
  exact ⟨fun e _ => ⟨createErrorPacket_raw e, rfl⟩, by decide, by decide, rfl⟩

theorem c10_witness :
    (createErrorPacket errAccess).raw
        = be16 5 ++ be16 errAccess.errorCode ++ errAccess.errorMsg ++ [0]
  ∧ (createErrorPacket errAccess).err = errAccess :=
  c10_error_packet_consistency.1 errAccess (by decide)

end TFTP
